import Mathlib

set_option maxHeartbeats 1000000
set_option maxRecDepth 8000

/-
Verification development for the openclaw command-execution gatekeeper.

The orchestrator `handleSystemRunInvoke` is translated from
`src/agents/tool-policy.ts`.  The command normalizer
(`system-run-command.ts`), the approval-forwarding sanitizer
(`node-invoke-system-run-approval.ts`) and the allowlist/approval helpers
(`exec-approvals.ts`) are not part of the sources; they are modelled from
the specification (sections 4.1, 4.2, 4.4, 4.5, 4.6) and the unit tests
that exercise them.  External collaborators (the shell/argv analyzers, the
macOS companion exec host, the executor) enter the orchestrator as
explicit oracle parameters, exactly where `tool-policy.ts` receives them
as injected dependencies.

String primitives are reimplemented over `String.data` so that every
definition evaluates inside the kernel.
-/

/-- ASCII lower-casing of one character. -/
def lowerChar (c : Char) : Char :=
  if 'A' ≤ c ∧ c ≤ 'Z' then Char.ofNat (c.toNat + 32) else c

/-- ASCII lower-casing of a string (kernel-reducible `toLowerCase`). -/
def strLower (s : String) : String :=
  String.mk (s.data.map lowerChar)

/-- ASCII whitespace, as trimmed by `String.prototype.trim`. -/
def isWsChar (c : Char) : Bool :=
  c == ' ' || c == '\t' || c == '\n' || c == '\r'

/-- Kernel-reducible `trim`. -/
def strTrim (s : String) : String :=
  String.mk (((s.data.dropWhile isWsChar).reverse.dropWhile isWsChar).reverse)

/-- Join a list of strings with a single space between consecutive items. -/
def joinWithSpace : List String → String
  | [] => ""
  | [t] => t
  | t :: rest => t ++ " " ++ joinWithSpace rest

/-- Last path component of a program token, splitting on both separators. -/
def basename (s : String) : String :=
  String.mk ((s.data.reverse.takeWhile fun c => !(c == '/' || c == '\\')).reverse)

/-- Recognized POSIX shell basenames (spec 4.2). -/
def isPosixShellName (s : String) : Bool :=
  s == "sh" || s == "bash" || s == "dash" || s == "zsh"

/-- Recognized Windows cmd basenames, case-insensitive (spec 4.2). -/
def isCmdShellName (s : String) : Bool :=
  strLower s == "cmd.exe" || strLower s == "cmd"

/-- Case-insensitive test for the cmd.exe command flags `/c` and `/k`. -/
def isCmdFlag (s : String) : Bool :=
  strLower s == "/c" || strLower s == "/k"

/-- Modelled from the spec: the cmd.exe scan of `extractShellCommandFromArgv`
(spec 4.2, `system-run-command.ts` is absent from the sources).  Finds the
first `/c` or `/k` among the arguments; if at least one token follows it,
every following token is joined by a single space, otherwise the result is
null. -/
def extractAfterCmdFlag : List String → Option String
  | [] => none
  | tok :: rest =>
    if isCmdFlag tok then
      if rest.isEmpty then none else some (joinWithSpace rest)
    else extractAfterCmdFlag rest

/-- Modelled from the spec: `extractShellCommandFromArgv` of
`system-run-command.ts` (absent from the sources; spec 4.2 and its unit
tests).  POSIX wrappers `sh|bash|dash|zsh -c|-lc cmd …` yield `argv[2]`;
`cmd.exe`/`cmd` invocations yield every token after the first `/c`/`/k`
joined by one space; anything else yields null. -/
def extractShellCommandFromArgv : List String → Option String
  | [] => none
  | prog :: rest =>
    if isPosixShellName (basename prog) then
      match rest with
      | flag :: cmd :: _ => if flag == "-c" || flag == "-lc" then some cmd else none
      | _ => none
    else if isCmdShellName (basename prog) then
      extractAfterCmdFlag rest
    else none

/-- Characters that force a token to be quoted by `formatExecCommand`
(spec 4.1). -/
def execUnsafeChars : List Char :=
  [' ', '\t', '"', '\\', '$', Char.ofNat 96, '&', '|', ';', '<', '>',
   '(', ')', '*', '?', '[', ']', Char.ofNat 123, Char.ofNat 125, '#', '~', '!']

/-- Whether a token needs the double-quoted rendering (spec 4.1). -/
def tokenNeedsQuoting (t : String) : Bool :=
  t.data.any fun c => execUnsafeChars.contains c

/-- Escape for a character inside the double-quoted rendering: embedded `"`
and `\` are escaped by a backslash (spec 4.1). -/
def escapeQuotedChar (c : Char) : List Char :=
  if c == '"' || c == '\\' then ['\\', c] else [c]

/-- Render one token for `formatExecCommand` (spec 4.1). -/
def formatExecToken (t : String) : String :=
  if tokenNeedsQuoting t then
    String.mk ('"' :: (t.data.flatMap escapeQuotedChar) ++ ['"'])
  else t

/-- Modelled from the spec: `formatExecCommand` of `system-run-command.ts`
(absent from the sources; spec 4.1 `format`).  Tokens join with a single
space; a token containing an unsafe character is wrapped in double quotes
with embedded quotes and backslashes escaped. -/
def formatExecCommand (argv : List String) : String :=
  joinWithSpace (argv.map formatExecToken)

/-- Canonical form of a normalized request (spec 3, `NormalizedCommand`). -/
structure ResolvedCommand where
  argv : List String
  rawCommand : Option String
  shellCommand : Option String
  cmdText : String
  deriving DecidableEq, Repr

/-- Outcome of normalization: the resolved command or an error message with
a detail code. -/
inductive ResolveResult where
  | ok (cmd : ResolvedCommand)
  | error (message : String) (code : String)
  deriving DecidableEq, Repr

/-- True when a `ResolveResult` is the success case. -/
def ResolveResult.isOk : ResolveResult → Bool
  | .ok _ => true
  | .error _ _ => false

/-- The cmdText of a successful normalization, if any. -/
def ResolveResult.cmdText? : ResolveResult → Option String
  | .ok cmd => some cmd.cmdText
  | .error _ _ => none

/-- Modelled from the spec: `validateSystemRunCommandConsistency` of
`system-run-command.ts` (absent from the sources; spec 3 invariant and its
unit tests).  A present rawCommand must equal the shell-quoted rendering of
argv or the extracted shell command of a recognized wrapper; otherwise the
request fails with detail code RAW_COMMAND_MISMATCH. -/
def validateSystemRunCommandConsistency (argv : List String) (raw : String) :
    ResolveResult :=
  let shell := extractShellCommandFromArgv argv
  if raw = formatExecCommand argv ∨ shell = some raw then
    .ok { argv := argv, rawCommand := some raw, shellCommand := shell,
          cmdText := shell.getD (formatExecCommand argv) }
  else
    .error "rawCommand does not match command" "RAW_COMMAND_MISMATCH"

/-- Modelled from the spec: `resolveSystemRunCommand` of
`system-run-command.ts` (absent from the sources; spec 4.7 step 1 and its
unit tests).  A rawCommand without a command is MISSING_COMMAND; an absent
(or empty) rawCommand normalizes argv directly; otherwise the consistency
check runs. -/
def resolveSystemRunCommand (command : Option (List String))
    (rawCommand : Option String) : ResolveResult :=
  let raw := rawCommand.getD ""
  if raw = "" then
    let argv := command.getD []
    let shell := extractShellCommandFromArgv argv
    .ok { argv := argv, rawCommand := none, shellCommand := shell,
          cmdText := shell.getD (formatExecCommand argv) }
  else
    match command with
    | none => .error "rawCommand requires params.command" "MISSING_COMMAND"
    | some [] => .error "rawCommand requires params.command" "MISSING_COMMAND"
    | some argv => validateSystemRunCommandConsistency argv raw

example : formatExecCommand ["echo", "hi there"] = "echo \"hi there\"" := by decide
example : extractShellCommandFromArgv ["/bin/sh", "-lc", "echo hi"] = some "echo hi" := by decide
example : extractShellCommandFromArgv ["cmd.exe", "/d", "/s", "/c", "echo hi"] = some "echo hi" := by decide
example : extractShellCommandFromArgv ["cmd.exe", "/d", "/s", "/c", "echo", "SAFE&&whoami"] =
    some "echo SAFE&&whoami" := by decide
example : (validateSystemRunCommandConsistency ["echo", "hi"] "echo hi").isOk = true := by decide
example : validateSystemRunCommandConsistency ["uname", "-a"] "echo hi" =
    .error "rawCommand does not match command" "RAW_COMMAND_MISMATCH" := by decide
example : (validateSystemRunCommandConsistency ["/bin/sh", "-lc", "echo hi"] "echo hi").isOk = true := by
  decide
example : validateSystemRunCommandConsistency ["cmd.exe", "/d", "/s", "/c", "echo", "SAFE&&whoami"] "echo" =
    .error "rawCommand does not match command" "RAW_COMMAND_MISMATCH" := by decide
example : resolveSystemRunCommand none (some "echo hi") =
    .error "rawCommand requires params.command" "MISSING_COMMAND" := by decide
example : resolveSystemRunCommand (some ["cmd.exe", "/d", "/s", "/c", "echo", "SAFE&&whoami"])
    (some "echo SAFE&&whoami") =
    .ok { argv := ["cmd.exe", "/d", "/s", "/c", "echo", "SAFE&&whoami"],
          rawCommand := some "echo SAFE&&whoami",
          shellCommand := some "echo SAFE&&whoami",
          cmdText := "echo SAFE&&whoami" } := by decide

/-- Lexer mode for the shell tokenizer: outside quotes, inside single
quotes, inside double quotes. -/
inductive LexMode where
  | normal
  | single
  | double
  deriving DecidableEq, Repr

/-- Running state of the shell tokenizer: validity flag, token in
progress, tokens of the segment in progress, finished segments, operators
seen between segments. -/
structure LexState where
  ok : Bool
  curTok : Option String
  curSeg : List String
  segs : List (List String)
  ops : List String
  deriving DecidableEq, Repr

/-- Close the token in progress, if any. -/
def closeTok (st : LexState) : LexState :=
  match st.curTok with
  | none => st
  | some t => { st with curTok := none, curSeg := st.curSeg ++ [t] }

/-- Make sure a token is in progress (so quotes can produce empty tokens). -/
def ensureTok (st : LexState) : LexState :=
  { st with curTok := some (st.curTok.getD "") }

/-- Append one character to the token in progress. -/
def pushTokChar (st : LexState) (c : Char) : LexState :=
  { st with curTok := some ((st.curTok.getD "").push c) }

/-- Close the segment in progress and record the operator that ended it. -/
def closeSeg (st : LexState) (op : String) : LexState :=
  let st := closeTok st
  { st with curSeg := [],
            segs := if st.curSeg.isEmpty then st.segs else st.segs ++ [st.curSeg],
            ops := st.ops ++ [op] }

/-- Finish lexing: close the pending token and segment; a non-normal final
mode is an unterminated quote and clears the ok flag. -/
def finishLex (mode : LexMode) (st : LexState) : LexState :=
  let st := closeTok st
  let st := { st with curSeg := [],
                      segs := if st.curSeg.isEmpty then st.segs else st.segs ++ [st.curSeg] }
  if mode = LexMode.normal then st else { st with ok := false }

/-- Abort lexing on a construct that prevents safe analysis. -/
def fatalLex (mode : LexMode) (st : LexState) : LexState :=
  { finishLex mode st with ok := false }

/-- Modelled from the spec: the tokenizer of `parseShell` (spec 4.2;
`exec-approvals.ts` is absent from the sources).  Single quotes are
literal; double quotes honor backslash escapes of `"` `\\` `$` and the
backtick only; a backslash outside quotes escapes the next character;
`|` `||` `&&` `;` `&` split segments; command substitution, process
substitution and `${` are fatal.  The fuel argument only bounds the
recursion; `parseShell` supplies more fuel than characters, so the
out-of-fuel case is unreachable. -/
def lexShell : Nat → List Char → LexMode → LexState → LexState
  | 0, _, mode, st => fatalLex mode st
  | _ + 1, [], mode, st => finishLex mode st
  | fuel + 1, c :: cs, LexMode.single, st =>
    if c = Char.ofNat 39 then lexShell fuel cs LexMode.normal (ensureTok st)
    else lexShell fuel cs LexMode.single (pushTokChar st c)
  | fuel + 1, c :: cs, LexMode.double, st =>
    if c = '"' then lexShell fuel cs LexMode.normal (ensureTok st)
    else if c = '\\' then
      match cs with
      | d :: cs' =>
        if d = '"' ∨ d = '\\' ∨ d = '$' ∨ d = Char.ofNat 96 then
          lexShell fuel cs' LexMode.double (pushTokChar st d)
        else
          lexShell fuel cs' LexMode.double (pushTokChar (pushTokChar st c) d)
      | [] => finishLex LexMode.double (pushTokChar st c)
    else lexShell fuel cs LexMode.double (pushTokChar st c)
  | fuel + 1, c :: cs, LexMode.normal, st =>
    if c = ' ' ∨ c = '\t' then lexShell fuel cs LexMode.normal (closeTok st)
    else if c = Char.ofNat 39 then lexShell fuel cs LexMode.single (ensureTok st)
    else if c = '"' then lexShell fuel cs LexMode.double (ensureTok st)
    else if c = '\\' then
      match cs with
      | d :: cs' => lexShell fuel cs' LexMode.normal (pushTokChar st d)
      | [] => fatalLex LexMode.normal st
    else if c = Char.ofNat 96 then fatalLex LexMode.normal st
    else if c = '$' then
      match cs with
      | d :: _ =>
        if d = '(' ∨ d = Char.ofNat 123 then fatalLex LexMode.normal st
        else lexShell fuel cs LexMode.normal (pushTokChar st c)
      | [] => lexShell fuel cs LexMode.normal (pushTokChar st c)
    else if c = '<' ∨ c = '>' then
      match cs with
      | d :: _ =>
        if d = '(' then fatalLex LexMode.normal st
        else lexShell fuel cs LexMode.normal (pushTokChar st c)
      | [] => lexShell fuel cs LexMode.normal (pushTokChar st c)
    else if c = '|' then
      match cs with
      | d :: cs' =>
        if d = '|' then lexShell fuel cs' LexMode.normal (closeSeg st "or")
        else lexShell fuel cs LexMode.normal (closeSeg st "pipe")
      | [] => lexShell fuel cs LexMode.normal (closeSeg st "pipe")
    else if c = '&' then
      match cs with
      | d :: cs' =>
        if d = '&' then lexShell fuel cs' LexMode.normal (closeSeg st "and")
        else lexShell fuel cs LexMode.normal (closeSeg st "background")
      | [] => lexShell fuel cs LexMode.normal (closeSeg st "background")
    else if c = ';' then lexShell fuel cs LexMode.normal (closeSeg st "semicolon")
    else lexShell fuel cs LexMode.normal (pushTokChar st c)

/-- Modelled from the spec: `parseShell` (spec 4.2) reduced to the data the
orchestrator consumes — the analysis flag and the token lists of the
segments. -/
def parseShell (s : String) : Bool × List (List String) :=
  let st := lexShell (s.data.length + 1) s.data LexMode.normal
    { ok := true, curTok := none, curSeg := [], segs := [], ops := [] }
  (st.ok, st.segs)

example : parseShell "echo hi" = (true, [["echo", "hi"]]) := by decide
example : parseShell "echo SAFE&&whoami" = (true, [["echo", "SAFE"], ["whoami"]]) := by decide
example : (parseShell "echo $(whoami)").1 = false := by decide
example : parseShell "cmd.exe /c echo hi" = (true, [["cmd.exe", "/c", "echo", "hi"]]) := by decide
example : parseShell "echo \"a b\" | wc" = (true, [["echo", "a b"], ["wc"]]) := by decide

/-- Execution policy security mode (spec 3 `Policy`). -/
inductive ExecSecurity where
  | off
  | allowlist
  | deny
  deriving DecidableEq, Repr

/-- Execution policy ask mode (spec 3 `Policy`). -/
inductive ExecAsk where
  | never
  | untrusted
  | always
  deriving DecidableEq, Repr

/-- Host platform as reported by `process.platform`. -/
inductive Platform where
  | win32
  | darwin
  | linux
  deriving DecidableEq, Repr

/-- Per-agent allowlist record (spec 3 `AllowlistEntry`). -/
structure AllowlistEntry where
  agentId : Option String
  pattern : String
  useCount : Nat
  lastUsedAtMs : Nat
  createdAtMs : Nat
  lastCmdText : String
  deriving DecidableEq, Repr

/-- Identity of an allowlist entry: its agent scope and resolved pattern. -/
def entryKey (e : AllowlistEntry) : Option String × String :=
  (e.agentId, e.pattern)

/-- Resolution of a segment program (spec 3 `Segment`), reduced to the
resolved path the orchestrator reads. -/
structure SegmentResolution where
  resolvedPath : Option String
  deriving DecidableEq, Repr

/-- One command between shell operators (spec 3 `Segment`,
`ExecCommandSegment` of `exec-approvals.ts`). -/
structure ExecCommandSegment where
  argv : List String
  resolution : Option SegmentResolution
  deriving DecidableEq, Repr

/-- Combined output of the external analyzers and the allowlist evaluator
(`evaluateShellAllowlist` / `analyzeArgvCommand` + `evaluateExecAllowlist`
of `exec-approvals.ts`, absent from the sources): the analysis flag, the
matched entries, the raw satisfaction verdict and the segments. -/
structure EvalOut where
  analysisOk : Bool
  allowlistMatches : List AllowlistEntry
  allowlistSatisfied : Bool
  segments : List ExecCommandSegment
  deriving DecidableEq, Repr

/-- Result reported by the executor (`RunResult` of `tool-policy.ts`). -/
structure RunResult where
  exitCode : Option Int
  timedOut : Bool
  success : Bool
  stdout : String
  stderr : String
  error : Option String
  truncated : Bool
  deriving DecidableEq, Repr

/-- Response of the macOS companion exec host (`ExecHostResponse`):
null is modelled by `Option` at the call site. -/
inductive MacResponse where
  | ok (payload : RunResult)
  | err (message : String) (reason : Option String)
  deriving DecidableEq, Repr

/-- Reply sent through `sendInvokeResult`. -/
structure Reply where
  ok : Bool
  errorCode : Option String
  message : Option String
  payload : Option RunResult
  deriving DecidableEq, Repr

/-- Audit events emitted to the sink, reduced to their kind and denial
reason (the payload fields are not claim-relevant). -/
inductive NodeEvent where
  | denied (reason : String)
  | finished
  deriving DecidableEq, Repr

/-- Observable outcome of one `handleSystemRunInvoke` invocation: emitted
events, the invoke reply, the argv dispatched to the local executor (if
any), the argv forwarded to the macOS companion (if any), and the
allowlist store after the invocation. -/
structure RunOutcome where
  events : List NodeEvent
  reply : Reply
  executed : Option (List String)
  macForwarded : Option (List String)
  allowlist : List AllowlistEntry
  deriving DecidableEq, Repr

/-- Inbound request parameters (`SystemRunParams` of `tool-policy.ts`),
reduced to the fields the orchestrator reads. -/
structure SystemRunParams where
  command : Option (List String)
  rawCommand : Option String
  cwd : Option String
  needsScreenRecording : Option Bool
  agentId : Option String
  sessionKey : Option String
  approved : Option Bool
  approvalDecision : Option String
  runId : Option String
  deriving DecidableEq, Repr

/-- Per-invocation environment: platform, the per-agent resolved policy
(`resolveExecApprovals` output), the allowlist store, the exec-host
configuration flags and the clock. -/
structure RunCtx where
  platform : Platform
  security : ExecSecurity
  ask : ExecAsk
  allowlist : List AllowlistEntry
  execHostEnforced : Bool
  execHostFallbackAllowed : Bool
  nowMs : Nat

/-- External collaborators injected into the orchestrator: the shell-side
allowlist evaluator, the argv-side analyzer+evaluator, the macOS companion
(`none` models an unreachable host) and the executor. -/
structure RunOracles where
  shellEval : String → EvalOut
  argvEval : List String → EvalOut
  macHost : Option MacResponse
  runCommand : List String → RunResult

/-- Modelled from the spec: `requiresExecApproval` of `exec-approvals.ts`
(absent from the sources; spec 4.6). -/
def requiresExecApproval (ask : ExecAsk) (security : ExecSecurity)
    (analysisOk allowlistSatisfied : Bool) : Bool :=
  match ask with
  | .always => true
  | .never => false
  | .untrusted =>
    (security = ExecSecurity.allowlist ∧ (analysisOk = false ∨ allowlistSatisfied = false)) ∨
    (security = ExecSecurity.off ∧ analysisOk = false)

/-- Modelled from the spec: `addAllowlistEntry` of `exec-approvals.ts`
(absent from the sources; spec 4.4 `addEntry`, idempotent insertion). -/
def addAllowlistEntry (store : List AllowlistEntry) (agentId : Option String)
    (pattern : String) (nowMs : Nat) : List AllowlistEntry :=
  if store.any fun e => e.agentId = agentId ∧ e.pattern = pattern then store
  else store ++ [{ agentId := agentId, pattern := pattern, useCount := 0,
                   lastUsedAtMs := nowMs, createdAtMs := nowMs, lastCmdText := "" }]

/-- Modelled from the spec: `recordAllowlistUse` of `exec-approvals.ts`
(absent from the sources; spec 4.4 `recordUse`): increment useCount and
update lastUsedAtMs and lastCmdText of the matched entry. -/
def recordAllowlistUse (store : List AllowlistEntry) (entry : AllowlistEntry)
    (cmdText : String) (nowMs : Nat) : List AllowlistEntry :=
  store.map fun e =>
    if e.agentId = entry.agentId ∧ e.pattern = entry.pattern then
      { e with useCount := e.useCount + 1, lastUsedAtMs := nowMs, lastCmdText := cmdText }
    else e

/-- The recordUse loop of `handleSystemRunInvoke` (tool-policy.ts 538-553):
each matched entry with a non-empty pattern is recorded once, deduplicated
by pattern. -/
def recordUsesLoop (store : List AllowlistEntry) (ms : List AllowlistEntry)
    (cmdText : String) (nowMs : Nat) (seen : List String) : List AllowlistEntry :=
  match ms with
  | [] => store
  | m :: rest =>
    if m.pattern = "" ∨ seen.contains m.pattern then
      recordUsesLoop store rest cmdText nowMs seen
    else
      recordUsesLoop (recordAllowlistUse store m cmdText nowMs) rest cmdText nowMs
        (seen ++ [m.pattern])

/-- The allowlist-insertion loop of `handleSystemRunInvoke`
(tool-policy.ts 508-517): each segment with a resolved path becomes an
entry. -/
def insertSegmentPatterns (store : List AllowlistEntry) (agentId : Option String)
    (segments : List ExecCommandSegment) (nowMs : Nat) : List AllowlistEntry :=
  match segments with
  | [] => store
  | seg :: rest =>
    let pattern := ((seg.resolution.map SegmentResolution.resolvedPath).getD none).getD ""
    let store := if pattern = "" then store else addAllowlistEntry store agentId pattern nowMs
    insertSegmentPatterns store agentId rest nowMs

/-- Modelled from the spec: the `isCmdExeInvocation` callback passed to the
orchestrator (spec 4.2 / 4.6 step 3): the program basename is `cmd.exe`
or `cmd`, case-insensitive. -/
def isCmdExeInvocation (argv : List String) : Bool :=
  match argv with
  | [] => false
  | prog :: _ => isCmdShellName (basename prog)

/-- The trimmed agent id: `opts.params.agentId?.trim() || undefined`
(tool-policy.ts 322). -/
def trimmedAgentId (p : SystemRunParams) : Option String :=
  match p.agentId with
  | none => none
  | some s => if strTrim s = "" then none else some (strTrim s)

/-- The validated approval decision (tool-policy.ts 485-488): only
`allow-once` and `allow-always` survive. -/
def approvalDecisionOf (p : SystemRunParams) : Option String :=
  if p.approvalDecision = some "allow-once" ∨ p.approvalDecision = some "allow-always" then
    p.approvalDecision
  else none

/-- Pre-approval flag (tool-policy.ts 489): a surviving approval decision
or `approved === true`. -/
def approvedByAskOf (p : SystemRunParams) : Bool :=
  (approvalDecisionOf p).isSome || p.approved == some true

/-- Reply for a request-shape error (tool-policy.ts 303-316). -/
def invalidReply (m : String) : Reply :=
  { ok := false, errorCode := some "INVALID_REQUEST", message := some m, payload := none }

/-- Reply for a denial or an ask (tool-policy.ts). -/
def unavailableReply (m : String) : Reply :=
  { ok := false, errorCode := some "UNAVAILABLE", message := some m, payload := none }

/-- Successful reply carrying the executor result. -/
def okReply (r : RunResult) : Reply :=
  { ok := true, errorCode := none, message := none, payload := some r }

/-- Outcome of a request rejected at normalization: no event, no dispatch,
no store change. -/
def invalidOutcome (ctx : RunCtx) (m : String) : RunOutcome :=
  { events := [], reply := invalidReply m, executed := none, macForwarded := none,
    allowlist := ctx.allowlist }

/-- Analysis and allowlist evaluation (tool-policy.ts 342-378): the shell
branch runs `evaluateShellAllowlist`, the argv branch runs
`analyzeArgvCommand` + `evaluateExecAllowlist`; in both branches the
satisfaction verdict is kept only under security=allowlist with a clean
analysis. -/
def evalStage (ctx : RunCtx) (oracles : RunOracles) (argv : List String)
    (shellCommand : Option String) : EvalOut :=
  let raw := match shellCommand with
    | some sc => oracles.shellEval sc
    | none => oracles.argvEval argv
  { analysisOk := raw.analysisOk
    allowlistMatches := raw.allowlistMatches
    allowlistSatisfied :=
      if ctx.security = ExecSecurity.allowlist ∧ raw.analysisOk = true then
        raw.allowlistSatisfied
      else false
    segments := raw.segments }

/-- The cmd invocation test of tool-policy.ts 381-383: with a shell
command present it inspects the first analyzed segment, otherwise the
request argv. -/
def cmdInvocationOf (argv : List String) (shellCommand : Option String)
    (e : EvalOut) : Bool :=
  match shellCommand with
  | some _ => isCmdExeInvocation (((e.segments.head?).map ExecCommandSegment.argv).getD [])
  | none => isCmdExeInvocation argv

/-- The Windows cmd.exe rule (tool-policy.ts 384-387): under
security=allowlist on win32, a cmd invocation clears analysisOk and
allowlistSatisfied. -/
def applyCmdRule (ctx : RunCtx) (argv : List String) (shellCommand : Option String)
    (e : EvalOut) : EvalOut :=
  if ctx.security = ExecSecurity.allowlist ∧ ctx.platform = Platform.win32 ∧
      cmdInvocationOf argv shellCommand e = true then
    { e with analysisOk := false, allowlistSatisfied := false }
  else e

/-- Output truncation suffix handling (tool-policy.ts 594-601). -/
def truncateResult (r : RunResult) : RunResult :=
  if r.truncated then
    if (strTrim r.stderr).length > 0 then
      { r with stderr := r.stderr ++ "\n... (truncated)" }
    else
      { r with stdout := r.stdout ++ "\n... (truncated)" }
  else r

/-- Whether the head segment has a non-empty argv
(`segments[0]?.argv.length > 0`, tool-policy.ts 583). -/
def headSegArgvNonempty (segs : List ExecCommandSegment) : Bool :=
  match segs.head? with
  | some seg => decide (seg.argv.length > 0)
  | none => false

/-- The argv of the head segment, with the request argv as fallback
(tool-policy.ts 585). -/
def headSegArgv (segs : List ExecCommandSegment) (fallback : List String) : List String :=
  match segs.head? with
  | some seg => seg.argv
  | none => fallback

/-- The node-host decision path of `handleSystemRunInvoke`
(tool-policy.ts 459-615): security=deny denial, approval gate, allow-always
allowlist insertion, allowlist-miss denial, recordUse loop, screen-recording
denial, execArgv selection and executor dispatch.  `macFwd` remembers the
argv already forwarded to the macOS companion when this path runs as the
fallback. -/
def nodeDecision (ctx : RunCtx) (oracles : RunOracles) (p : SystemRunParams)
    (cmd : ResolvedCommand) (e : EvalOut) (macFwd : Option (List String)) : RunOutcome :=
  if ctx.security = ExecSecurity.deny then
    { events := [NodeEvent.denied "security=deny"],
      reply := unavailableReply "SYSTEM_RUN_DISABLED: security=deny",
      executed := none, macForwarded := macFwd, allowlist := ctx.allowlist }
  else if requiresExecApproval ctx.ask ctx.security e.analysisOk e.allowlistSatisfied = true ∧
      approvedByAskOf p = false then
    { events := [NodeEvent.denied "approval-required"],
      reply := unavailableReply "SYSTEM_RUN_DENIED: approval required",
      executed := none, macForwarded := macFwd, allowlist := ctx.allowlist }
  else
    let store1 :=
      if approvalDecisionOf p = some "allow-always" ∧ ctx.security = ExecSecurity.allowlist ∧
          e.analysisOk = true then
        insertSegmentPatterns ctx.allowlist (trimmedAgentId p) e.segments ctx.nowMs
      else ctx.allowlist
    if ctx.security = ExecSecurity.allowlist ∧
        (e.analysisOk = false ∨ e.allowlistSatisfied = false) ∧
        approvedByAskOf p = false then
      { events := [NodeEvent.denied "allowlist-miss"],
        reply := unavailableReply "SYSTEM_RUN_DENIED: allowlist miss",
        executed := none, macForwarded := macFwd, allowlist := store1 }
    else
      let store2 := recordUsesLoop store1 e.allowlistMatches cmd.cmdText ctx.nowMs []
      if p.needsScreenRecording = some true then
        { events := [NodeEvent.denied "permission:screenRecording"],
          reply := unavailableReply "PERMISSION_MISSING: screenRecording",
          executed := none, macForwarded := macFwd, allowlist := store2 }
      else
        let execArgv :=
          if ctx.security = ExecSecurity.allowlist ∧ ctx.platform = Platform.win32 ∧
              approvedByAskOf p = false ∧ cmd.shellCommand.isSome = true ∧
              e.analysisOk = true ∧ e.allowlistSatisfied = true ∧
              e.segments.length = 1 ∧ headSegArgvNonempty e.segments = true then
            headSegArgv e.segments cmd.argv
          else cmd.argv
        let result := truncateResult (oracles.runCommand execArgv)
        { events := [NodeEvent.finished], reply := okReply result,
          executed := some execArgv, macForwarded := macFwd, allowlist := store2 }

/-- Translation of `handleSystemRunInvoke` (tool-policy.ts 262-615):
normalization, analysis + allowlist evaluation, the cmd.exe rule, the macOS
companion branch, and the node decision path. -/
def handleSystemRunInvoke (ctx : RunCtx) (oracles : RunOracles)
    (p : SystemRunParams) : RunOutcome :=
  match resolveSystemRunCommand p.command p.rawCommand with
  | .error m _ => invalidOutcome ctx m
  | .ok cmd =>
    if cmd.argv.isEmpty then invalidOutcome ctx "command required"
    else
      let e := applyCmdRule ctx cmd.argv cmd.shellCommand
        (evalStage ctx oracles cmd.argv cmd.shellCommand)
      if ctx.platform = Platform.darwin then
        match oracles.macHost with
        | none =>
          if ctx.execHostEnforced ∨ ctx.execHostFallbackAllowed = false then
            { events := [NodeEvent.denied "companion-unavailable"],
              reply := unavailableReply
                "COMPANION_APP_UNAVAILABLE: macOS app exec host unreachable",
              executed := none, macForwarded := some cmd.argv,
              allowlist := ctx.allowlist }
          else nodeDecision ctx oracles p cmd e (some cmd.argv)
        | some (.err m reason) =>
          { events := [NodeEvent.denied (reason.getD "approval-required")],
            reply := unavailableReply m,
            executed := none, macForwarded := some cmd.argv,
            allowlist := ctx.allowlist }
        | some (.ok payload) =>
          { events := [NodeEvent.finished], reply := okReply payload,
            executed := none, macForwarded := some cmd.argv,
            allowlist := ctx.allowlist }
      else nodeDecision ctx oracles p cmd e none

/-- Request summary stored in an approval record (spec 3 `ApprovalRecord`). -/
structure ApprovalRequestSummary where
  host : String
  command : String
  cwd : Option String
  agentId : Option String
  sessionKey : Option String
  deriving DecidableEq, Repr

/-- An operator approval record (`ExecApprovalRecord` of
`exec-approval-manager.ts`, shaped as in its unit tests). -/
structure ExecApprovalRecord where
  id : String
  request : ApprovalRequestSummary
  createdAtMs : Nat
  expiresAtMs : Nat
  decision : Option String
  resolvedAtMs : Option Nat
  resolvedBy : Option String
  deriving DecidableEq, Repr

/-- The requesting client connection, reduced to its granted scopes. -/
structure ClientInfo where
  scopes : List String
  deriving DecidableEq, Repr

/-- Result of the forwarding sanitizer: the params to forward, or a
message with an optional detail code. -/
inductive SanitizeResult where
  | ok (params : SystemRunParams)
  | fail (message : String) (code : Option String)
  deriving DecidableEq, Repr

/-- True when a `SanitizeResult` is the success case. -/
def SanitizeResult.isOk : SanitizeResult → Bool
  | .ok _ => true
  | .fail _ _ => false

/-- The scope an approval holder must carry (spec 4.5 "holder of the
required scopes"). -/
def requiredApprovalScope : String := "operator.approvals"

/-- Modelled from the spec: `sanitizeSystemRunParamsForForwarding` of
`node-invoke-system-run-approval.ts` (absent from the sources; spec 4.5
and its unit tests).  It re-runs the RAW_COMMAND_MISMATCH consistency
check, requires the approval scope, looks up the approval record for
`runId`, requires an unexpired granted decision, and requires the
normalized command text to equal the record's command text; only then does
it return the params with `approved := true` and the recorded decision. -/
def sanitizeSystemRunParamsForForwarding (rawParams : SystemRunParams)
    (client : ClientInfo) (getSnapshot : String → Option ExecApprovalRecord)
    (nowMs : Nat) : SanitizeResult :=
  match resolveSystemRunCommand rawParams.command rawParams.rawCommand with
  | .error m code => .fail m (some code)
  | .ok cmd =>
    if cmd.argv.isEmpty then .fail "command required" none
    else if client.scopes.contains requiredApprovalScope = false then
      .fail "missing approval scope" none
    else
      match rawParams.runId with
      | none => .fail "runId required" none
      | some rid =>
        match getSnapshot rid with
        | none => .fail "approval not found" none
        | some record =>
          if record.id ≠ rid then .fail "approval not found" none
          else if ¬(record.decision = some "allow-once" ∨
              record.decision = some "allow-always") then
            .fail "approval not granted" none
          else if record.expiresAtMs ≤ nowMs then .fail "approval expired" none
          else if record.request.command ≠ cmd.cmdText then
            .fail "approval command mismatch" none
          else
            .ok { rawParams with approved := some true,
                                 approvalDecision := record.decision }

/-- The approval record of the sanitizer unit tests, parametrized by the
approved command text. -/
def demoApprovalRecord (command : String) : ExecApprovalRecord :=
  { id := "approval-1"
    request := { host := "node", command := command, cwd := none,
                 agentId := none, sessionKey := none }
    createdAtMs := 9000
    expiresAtMs := 70000
    decision := some "allow-once"
    resolvedAtMs := some 9500
    resolvedBy := some "operator" }

/-- Snapshot lookup of the sanitizer unit tests: one record under id
`approval-1`. -/
def demoSnapshot (command : String) : String → Option ExecApprovalRecord :=
  fun rid => if rid = "approval-1" then some (demoApprovalRecord command) else none

/-- The client of the sanitizer unit tests. -/
def demoClient : ClientInfo :=
  { scopes := ["operator.write", "operator.approvals"] }

/-- Request params with every optional field absent. -/
def emptyParams : SystemRunParams :=
  { command := none, rawCommand := none, cwd := none, needsScreenRecording := none,
    agentId := none, sessionKey := none, approved := none, approvalDecision := none,
    runId := none }

/-- The smuggling request of the sanitizer unit tests: trailing cmd.exe
tokens not reflected in rawCommand. -/
def smuggleParams : SystemRunParams :=
  { emptyParams with
    command := some ["cmd.exe", "/d", "/s", "/c", "echo", "SAFE&&whoami"],
    rawCommand := some "echo",
    runId := some "approval-1",
    approved := some true,
    approvalDecision := some "allow-once" }

/-- The matching request of the sanitizer unit tests. -/
def matchingParams : SystemRunParams :=
  { smuggleParams with rawCommand := some "echo SAFE&&whoami" }

example :
    sanitizeSystemRunParamsForForwarding smuggleParams demoClient
      (demoSnapshot "echo") 10000 =
    .fail "rawCommand does not match command" (some "RAW_COMMAND_MISMATCH") := by decide

example :
    sanitizeSystemRunParamsForForwarding matchingParams demoClient
      (demoSnapshot "echo SAFE&&whoami") 10000 =
    .ok { matchingParams with approved := some true,
                              approvalDecision := some "allow-once" } := by decide

lemma isEmpty_false_of_ne_nil {α : Type} {l : List α} (h : l ≠ []) : l.isEmpty = false := by
  cases l with
  | nil => exact absurd rfl h
  | cons a l => rfl

lemma extractAfterCmdFlag_append (pre : List String) (flag : String) (ts : List String)
    (hpre : ∀ f ∈ pre, isCmdFlag f = false) (hflag : isCmdFlag flag = true)
    (hts : ts ≠ []) :
    extractAfterCmdFlag (pre ++ flag :: ts) = some (joinWithSpace ts) := by
  induction pre with
  | nil =>
    simp only [List.nil_append, extractAfterCmdFlag, hflag, if_true,
      isEmpty_false_of_ne_nil hts]
    simp
  | cons f pre ih =>
    have hf : isCmdFlag f = false := hpre f (List.mem_cons_self f pre)
    simp only [List.cons_append, extractAfterCmdFlag, hf]
    exact ih fun g hg => hpre g (List.mem_cons_of_mem f hg)

lemma extractAfterCmdFlag_eq_some {l : List String} {s : String}
    (h : extractAfterCmdFlag l = some s) :
    ∃ pre flag post, l = pre ++ flag :: post ∧ (∀ f ∈ pre, isCmdFlag f = false) ∧
      isCmdFlag flag = true ∧ post ≠ [] ∧ s = joinWithSpace post := by
  induction l with
  | nil => simp [extractAfterCmdFlag] at h
  | cons tok rest ih =>
    by_cases htok : isCmdFlag tok = true
    · refine ⟨[], tok, rest, by simp, by simp, htok, ?_, ?_⟩
      · intro hrest
        subst hrest
        simp [extractAfterCmdFlag, htok] at h
      · by_cases hrest : rest.isEmpty = true
        · simp [extractAfterCmdFlag, htok, hrest] at h
        · simp only [extractAfterCmdFlag, htok, if_true,
            Bool.not_eq_true] at h hrest
          rw [hrest] at h
          simp at h
          exact h.symm
    · rw [Bool.not_eq_true] at htok
      simp only [extractAfterCmdFlag, htok] at h
      obtain ⟨pre, flag, post, heq, hpre, hflag, hpost, hs⟩ := ih h
      refine ⟨tok :: pre, flag, post, by simp [heq], ?_, hflag, hpost, hs⟩
      intro f hf
      rcases List.mem_cons.mp hf with hf | hf
      · exact hf ▸ htok
      · exact hpre f hf

lemma posixShell_not_cmdShell {s : String} (h : isPosixShellName s = true) :
    isCmdShellName s = false := by
  simp only [isPosixShellName, Bool.or_eq_true, beq_iff_eq] at h
  rcases h with ((h | h) | h) | h <;> subst h <;> decide

/-- C1: for an argv `[cmd.exe, flags…, /c, t₁, …, tₙ]` (basename `cmd.exe`
or `cmd` case-insensitive, `/c` or `/k` the first such flag, at least one
following token) the extractor returns the following tokens joined by a
single space; for a POSIX wrapper `[sh|bash|dash|zsh, -c|-lc, cmd, …]` it
returns `argv[2]`; for any other argv it returns null. -/
theorem extractShellCommand_spec :
    (∀ (prog flag cmdStr : String) (rest : List String),
      isPosixShellName (basename prog) = true →
      (flag = "-c" ∨ flag = "-lc") →
      extractShellCommandFromArgv (prog :: flag :: cmdStr :: rest) = some cmdStr)
    ∧ (∀ (prog flag : String) (flags ts : List String),
      isCmdShellName (basename prog) = true →
      (∀ f ∈ flags, isCmdFlag f = false) →
      isCmdFlag flag = true → ts ≠ [] →
      extractShellCommandFromArgv (prog :: (flags ++ flag :: ts)) =
        some (joinWithSpace ts))
    ∧ (∀ (argv : List String) (s : String),
      extractShellCommandFromArgv argv = some s →
      (∃ prog flag cmdStr rest, argv = prog :: flag :: cmdStr :: rest ∧
        isPosixShellName (basename prog) = true ∧
        (flag = "-c" ∨ flag = "-lc") ∧ s = cmdStr)
      ∨ (∃ prog flags flag ts, argv = prog :: (flags ++ flag :: ts) ∧
        isCmdShellName (basename prog) = true ∧
        (∀ f ∈ flags, isCmdFlag f = false) ∧ isCmdFlag flag = true ∧
        ts ≠ [] ∧ s = joinWithSpace ts)) := by
  refine ⟨?_, ?_, ?_⟩
  · intro prog flag cmdStr rest hp hflag
    have hf : (flag == "-c" || flag == "-lc") = true := by
      rcases hflag with h | h <;> subst h <;> decide
    simp [extractShellCommandFromArgv, hp, hf]
  · intro prog flag flags ts hc hflags hflag hts
    have hp : isPosixShellName (basename prog) = false := by
      by_cases h : isPosixShellName (basename prog) = true
      · rw [posixShell_not_cmdShell h] at hc
        exact absurd hc (by simp)
      · exact Bool.not_eq_true _ ▸ h
    simp only [extractShellCommandFromArgv, hp, Bool.false_eq_true, if_false, hc, if_true]
    exact extractAfterCmdFlag_append flags flag ts hflags hflag hts
  · intro argv s h
    cases argv with
    | nil => simp [extractShellCommandFromArgv] at h
    | cons prog rest =>
      by_cases hp : isPosixShellName (basename prog) = true
      · left
        simp only [extractShellCommandFromArgv, hp, if_true] at h
        cases rest with
        | nil => simp at h
        | cons flag rest2 =>
          cases rest2 with
          | nil => simp at h
          | cons cmdStr rest' =>
            by_cases hf : (flag == "-c" || flag == "-lc") = true
            · simp only [hf, if_true] at h
              simp at h
              refine ⟨prog, flag, cmdStr, rest', rfl, hp, ?_, h.symm⟩
              simpa [Bool.or_eq_true, beq_iff_eq] using hf
            · rw [Bool.not_eq_true] at hf
              simp only [hf] at h
              simp at h
      · rw [Bool.not_eq_true] at hp
        by_cases hc : isCmdShellName (basename prog) = true
        · right
          simp only [extractShellCommandFromArgv, hp, Bool.false_eq_true, if_false,
            hc, if_true] at h
          obtain ⟨pre, flag, post, heq, hpre, hflag, hpost, hs⟩ :=
            extractAfterCmdFlag_eq_some h
          exact ⟨prog, pre, flag, post, by rw [heq], hc, hpre, hflag, hpost, hs⟩
        · rw [Bool.not_eq_true] at hc
          simp [extractShellCommandFromArgv, hp, hc] at h

/-- Witness for C1: the cmd.exe case of the extractor evaluated on the
trailing-token test vector. -/
theorem extractShellCommand_spec_witness :
    extractShellCommandFromArgv ["cmd.exe", "/d", "/s", "/c", "echo", "SAFE&&whoami"] =
      some "echo SAFE&&whoami" :=
  extractShellCommand_spec.2.1 "cmd.exe" "/c" ["/d", "/s"] ["echo", "SAFE&&whoami"]
    (by decide) (by decide) (by decide) (by decide)

/-- C2: normalization succeeds iff rawCommand is absent, or it equals the
shell-quoted rendering of a present non-empty argv, or it equals the
extracted shell command of a recognized wrapper argv; a present rawCommand
with a mismatching argv fails with RAW_COMMAND_MISMATCH and a present
rawCommand with no command fails with MISSING_COMMAND. -/
theorem resolveSystemRunCommand_spec :
    ∀ (command : Option (List String)) (rawCommand : Option String),
      ((resolveSystemRunCommand command rawCommand).isOk = true ↔
        (rawCommand.getD "" = "" ∨
         ∃ argv, command = some argv ∧ argv ≠ [] ∧
           (rawCommand.getD "" = formatExecCommand argv ∨
            extractShellCommandFromArgv argv = some (rawCommand.getD ""))))
      ∧ (∀ r, rawCommand = some r → r ≠ "" → (command = none ∨ command = some []) →
          resolveSystemRunCommand command rawCommand =
            .error "rawCommand requires params.command" "MISSING_COMMAND")
      ∧ (∀ r argv, rawCommand = some r → r ≠ "" → command = some argv → argv ≠ [] →
          ¬(r = formatExecCommand argv ∨ extractShellCommandFromArgv argv = some r) →
          resolveSystemRunCommand command rawCommand =
            .error "rawCommand does not match command" "RAW_COMMAND_MISMATCH") := by
  intro command rawCommand
  refine ⟨?_, ?_, ?_⟩
  · by_cases hr : rawCommand.getD "" = ""
    · simp [resolveSystemRunCommand, hr, ResolveResult.isOk]
    · cases command with
      | none => simp [resolveSystemRunCommand, hr, ResolveResult.isOk]
      | some argv =>
        cases argv with
        | nil => simp [resolveSystemRunCommand, hr, ResolveResult.isOk]
        | cons a l =>
          by_cases hm : rawCommand.getD "" = formatExecCommand (a :: l) ∨
              extractShellCommandFromArgv (a :: l) = some (rawCommand.getD "")
          · simp [resolveSystemRunCommand, validateSystemRunCommandConsistency,
              hr, hm, ResolveResult.isOk]
          · simp [resolveSystemRunCommand, validateSystemRunCommandConsistency,
              hr, hm, ResolveResult.isOk]
  · intro r hr hne hcmd
    have hget : rawCommand.getD "" = r := by rw [hr]; rfl
    rcases hcmd with hcmd | hcmd <;>
      simp [resolveSystemRunCommand, hget, hne, hcmd]
  · intro r argv hr hne hcmd hargv hmis
    have hget : rawCommand.getD "" = r := by rw [hr]; rfl
    cases argv with
    | nil => exact absurd rfl hargv
    | cons a l =>
      simp only [resolveSystemRunCommand, hget, hne, if_false, hcmd,
        validateSystemRunCommandConsistency]
      rw [if_neg hmis]

/-- Witness for C2: the trailing-token smuggling vector is rejected with
RAW_COMMAND_MISMATCH. -/
theorem resolveSystemRunCommand_spec_witness :
    resolveSystemRunCommand (some ["cmd.exe", "/d", "/s", "/c", "echo", "SAFE&&whoami"])
      (some "echo") =
      .error "rawCommand does not match command" "RAW_COMMAND_MISMATCH" :=
  (resolveSystemRunCommand_spec
      (some ["cmd.exe", "/d", "/s", "/c", "echo", "SAFE&&whoami"]) (some "echo")).2.2
    "echo" ["cmd.exe", "/d", "/s", "/c", "echo", "SAFE&&whoami"]
    rfl (by decide) rfl (by decide) (by decide)


/-- The params the sanitizer forwards for the matching unit-test request. -/
def forwardedMatchingParams : SystemRunParams :=
  { matchingParams with approved := some true, approvalDecision := some "allow-once" }

/-- C3: the forwarding sanitizer returns ok only when the incoming command
passes the consistency check, the client holds the approval scope, the
approval record under the request runId was granted and has not expired,
and the normalized command text equals the record's command text — the
returned params then carry approved=true and the recorded decision; on a
command-text mismatch it fails. -/
theorem sanitizeForwarding_spec :
    (∀ (rawParams : SystemRunParams) (client : ClientInfo)
        (getSnapshot : String → Option ExecApprovalRecord) (nowMs : Nat)
        (p : SystemRunParams),
      sanitizeSystemRunParamsForForwarding rawParams client getSnapshot nowMs =
        .ok p →
      (resolveSystemRunCommand rawParams.command rawParams.rawCommand).isOk = true ∧
      client.scopes.contains requiredApprovalScope = true ∧
      ∃ rid record, rawParams.runId = some rid ∧ getSnapshot rid = some record ∧
        record.id = rid ∧
        (record.decision = some "allow-once" ∨ record.decision = some "allow-always") ∧
        nowMs < record.expiresAtMs ∧
        (resolveSystemRunCommand rawParams.command rawParams.rawCommand).cmdText? =
          some record.request.command ∧
        p.approved = some true ∧ p.approvalDecision = record.decision)
    ∧ sanitizeSystemRunParamsForForwarding matchingParams demoClient
        (demoSnapshot "echo bye") 10000 = .fail "approval command mismatch" none := by
  refine ⟨?_, by decide⟩
  intro rawParams client getSnapshot nowMs p h
  unfold sanitizeSystemRunParamsForForwarding at h
  split at h
  · simp at h
  rename_i cmd hres
  rw [hres]
  split at h
  · simp at h
  rename_i hempty
  split at h
  · simp at h
  rename_i hscope
  refine ⟨by simp [ResolveResult.isOk], by simpa using hscope, ?_⟩
  split at h
  · simp at h
  rename_i rid hrid
  split at h
  · simp at h
  rename_i record hsnap
  split at h
  · simp at h
  rename_i hid
  split at h
  · simp at h
  rename_i hdec
  split at h
  · simp at h
  rename_i hexp
  split at h
  · simp at h
  rename_i htext
  rw [not_not] at hdec
  rw [Ne, not_not] at hid htext
  injection h with h
  subst h
  exact ⟨rid, record, hrid, hsnap, hid, hdec, by omega,
    by simp [ResolveResult.cmdText?, htext], rfl, rfl⟩

/-- Witness for C3: the sanitizer accepts the matching cmd.exe request of
its unit tests and stamps the recorded decision. -/
theorem sanitizeForwarding_spec_witness :
    (resolveSystemRunCommand matchingParams.command matchingParams.rawCommand).isOk
      = true ∧
    demoClient.scopes.contains requiredApprovalScope = true ∧
    ∃ rid record, matchingParams.runId = some rid ∧
      demoSnapshot "echo SAFE&&whoami" rid = some record ∧ record.id = rid ∧
      (record.decision = some "allow-once" ∨ record.decision = some "allow-always") ∧
      10000 < record.expiresAtMs ∧
      (resolveSystemRunCommand matchingParams.command matchingParams.rawCommand).cmdText?
        = some record.request.command ∧
      forwardedMatchingParams.approved = some true ∧
      forwardedMatchingParams.approvalDecision = record.decision :=
  sanitizeForwarding_spec.1 matchingParams demoClient (demoSnapshot "echo SAFE&&whoami")
    10000 forwardedMatchingParams (by decide)

/-- Modelled from the spec: segments produced by the external shell
evaluator for a command string — the spec parser's token lists, each with
the resolver's verdict for its program (spec 4.2/4.3). -/
def segmentsOfParse (resolver : String → Option String) (s : String) :
    List ExecCommandSegment :=
  (parseShell s).2.map fun a =>
    { argv := a,
      resolution := match a.head? with
        | some prog => some { resolvedPath := resolver prog }
        | none => none }

/-- The resolved path of a segment, if any. -/
def segPath (seg : ExecCommandSegment) : Option String :=
  (seg.resolution.map SegmentResolution.resolvedPath).getD none

/-- Modelled from the spec: a faithful instantiation of
`evaluateShellAllowlist` (spec 4.4) used to drive the orchestrator on
concrete inputs: analysisOk is the parser verdict, matches are the entries
whose pattern is some segment's resolved path, and the allowlist is
satisfied when the analysis is clean and every segment resolved to an
allowlisted path. -/
def specShellEval (resolver : String → Option String)
    (allow : List AllowlistEntry) (s : String) : EvalOut :=
  let segs := segmentsOfParse resolver s
  { analysisOk := (parseShell s).1
    allowlistMatches :=
      allow.filter fun entry => segs.any fun seg => segPath seg = some entry.pattern
    allowlistSatisfied :=
      (parseShell s).1 && segs.all fun seg =>
        match segPath seg with
        | some pa => allow.any fun entry => entry.pattern = pa
        | none => false
    segments := segs }

/-- Modelled from the spec: a faithful instantiation of
`analyzeArgvCommand` + `evaluateExecAllowlist` (spec 4.4) for the direct
argv branch: one segment holding the request argv. -/
def specArgvEval (resolver : String → Option String)
    (allow : List AllowlistEntry) (argv : List String) : EvalOut :=
  let seg : ExecCommandSegment :=
    { argv := argv,
      resolution := match argv.head? with
        | some prog => some { resolvedPath := resolver prog }
        | none => none }
  { analysisOk := true
    allowlistMatches :=
      allow.filter fun entry => segPath seg = some entry.pattern
    allowlistSatisfied :=
      match segPath seg with
      | some pa => allow.any fun entry => entry.pattern = pa
      | none => false
    segments := [seg] }

/-- Resolver fixture: `echo` lives at `/usr/bin/echo`. -/
def demoResolver : String → Option String :=
  fun t => if t = "echo" then some "/usr/bin/echo" else none

/-- Allowlist entry fixture for `/usr/bin/echo`. -/
def echoEntry : AllowlistEntry :=
  { agentId := none, pattern := "/usr/bin/echo", useCount := 3,
    lastUsedAtMs := 1000, createdAtMs := 500, lastCmdText := "echo hi" }

/-- Executor result fixture. -/
def demoRunResult : RunResult :=
  { exitCode := some 0, timedOut := false, success := true, stdout := "hi",
    stderr := "", error := none, truncated := false }

lemma recordAllowlistUse_keys (store : List AllowlistEntry) (m : AllowlistEntry)
    (c : String) (n : Nat) :
    (recordAllowlistUse store m c n).map entryKey = store.map entryKey := by
  unfold recordAllowlistUse
  rw [List.map_map]
  apply List.map_congr_left
  intro e _
  by_cases h : e.agentId = m.agentId ∧ e.pattern = m.pattern
  · simp [h, entryKey, Function.comp]
  · simp [h, Function.comp]

lemma recordUsesLoop_keys (ms : List AllowlistEntry) :
    ∀ (store : List AllowlistEntry) (c : String) (n : Nat) (seen : List String),
      (recordUsesLoop store ms c n seen).map entryKey = store.map entryKey := by
  induction ms with
  | nil => intro store c n seen; rfl
  | cons m rest ih =>
    intro store c n seen
    unfold recordUsesLoop
    split
    · exact ih store c n seen
    · rw [ih (recordAllowlistUse store m c n) c n (seen ++ [m.pattern])]
      exact recordAllowlistUse_keys store m c n

lemma nodeDecision_events_length (ctx : RunCtx) (oracles : RunOracles)
    (p : SystemRunParams) (cmd : ResolvedCommand) (e : EvalOut)
    (macFwd : Option (List String)) :
    (nodeDecision ctx oracles p cmd e macFwd).events.length = 1 := by
  simp only [nodeDecision]
  split
  · rfl
  split
  · rfl
  split
  · rfl
  split
  · rfl
  rfl

lemma nodeDecision_errorCode (ctx : RunCtx) (oracles : RunOracles)
    (p : SystemRunParams) (cmd : ResolvedCommand) (e : EvalOut)
    (macFwd : Option (List String)) :
    (nodeDecision ctx oracles p cmd e macFwd).reply.errorCode ≠
      some "INVALID_REQUEST" := by
  simp only [nodeDecision]
  split
  · simp [unavailableReply]
  split
  · simp [unavailableReply]
  split
  · simp [unavailableReply]
  split
  · simp [unavailableReply]
  simp [okReply]

lemma approvalDecisionOf_eq_none {p : SystemRunParams}
    (h : approvedByAskOf p = false) : approvalDecisionOf p = none := by
  unfold approvedByAskOf at h
  rcases Bool.or_eq_false_iff.mp h with ⟨h1, _⟩
  exact Option.not_isSome_iff_eq_none.mp (by simp [h1])

lemma nodeDecision_store (ctx : RunCtx) (oracles : RunOracles)
    (p : SystemRunParams) (cmd : ResolvedCommand) (e : EvalOut)
    (macFwd : Option (List String))
    (h1 : (nodeDecision ctx oracles p cmd e macFwd).reply.ok = false)
    (h2 : NodeEvent.denied "permission:screenRecording" ∉
      (nodeDecision ctx oracles p cmd e macFwd).events) :
    (nodeDecision ctx oracles p cmd e macFwd).allowlist = ctx.allowlist := by
  by_cases hc1 : ctx.security = ExecSecurity.deny
  · simp [nodeDecision, hc1]
  by_cases hc2 : requiresExecApproval ctx.ask ctx.security e.analysisOk
      e.allowlistSatisfied = true ∧ approvedByAskOf p = false
  · simp [nodeDecision, hc1, hc2]
  by_cases hc3 : ctx.security = ExecSecurity.allowlist ∧
      (e.analysisOk = false ∨ e.allowlistSatisfied = false) ∧
      approvedByAskOf p = false
  · have hnone : approvalDecisionOf p = none := approvalDecisionOf_eq_none hc3.2.2
    simp [nodeDecision, hc1, hc2, hc3, hnone]
    split <;> rfl
  by_cases hc4 : p.needsScreenRecording = some true
  · exfalso
    apply h2
    simp [nodeDecision, hc1, hc2, hc3, hc4]
  · exfalso
    simp [nodeDecision, hc1, hc2, hc3, hc4, okReply] at h1

lemma nodeDecision_keys (ctx : RunCtx) (oracles : RunOracles)
    (p : SystemRunParams) (cmd : ResolvedCommand) (e : EvalOut)
    (macFwd : Option (List String))
    (hnone : approvalDecisionOf p = none) :
    (nodeDecision ctx oracles p cmd e macFwd).allowlist.map entryKey =
      ctx.allowlist.map entryKey := by
  by_cases hc1 : ctx.security = ExecSecurity.deny
  · simp [nodeDecision, hc1]
  by_cases hc2 : requiresExecApproval ctx.ask ctx.security e.analysisOk
      e.allowlistSatisfied = true ∧ approvedByAskOf p = false
  · simp [nodeDecision, hc1, hc2]
  by_cases hc3 : ctx.security = ExecSecurity.allowlist ∧
      (e.analysisOk = false ∨ e.allowlistSatisfied = false) ∧
      approvedByAskOf p = false
  · simp [nodeDecision, hc1, hc2, hc3, hnone]
    split <;> rfl
  by_cases hc4 : p.needsScreenRecording = some true
  · simp [nodeDecision, hc1, hc2, hc3, hc4, hnone, recordUsesLoop_keys]
  · simp [nodeDecision, hc1, hc2, hc3, hc4, hnone, recordUsesLoop_keys]

lemma nodeDecision_preapproved_events (ctx : RunCtx) (oracles : RunOracles)
    (p : SystemRunParams) (cmd : ResolvedCommand) (e : EvalOut)
    (macFwd : Option (List String))
    (happ : approvedByAskOf p = true) :
    NodeEvent.denied "approval-required" ∉
      (nodeDecision ctx oracles p cmd e macFwd).events ∧
    NodeEvent.denied "allowlist-miss" ∉
      (nodeDecision ctx oracles p cmd e macFwd).events := by
  by_cases hc1 : ctx.security = ExecSecurity.deny
  · constructor <;> simp [nodeDecision, hc1]
  by_cases hc4 : p.needsScreenRecording = some true
  · constructor <;> simp [nodeDecision, hc1, happ, hc4]
  · constructor <;> simp [nodeDecision, hc1, happ, hc4, okReply]

lemma nodeDecision_executed (ctx : RunCtx) (oracles : RunOracles)
    (p : SystemRunParams) (cmd : ResolvedCommand) (e : EvalOut)
    (macFwd : Option (List String)) {a : List String}
    (h : (nodeDecision ctx oracles p cmd e macFwd).executed = some a) :
    a = if ctx.security = ExecSecurity.allowlist ∧ ctx.platform = Platform.win32 ∧
          approvedByAskOf p = false ∧ cmd.shellCommand.isSome = true ∧
          e.analysisOk = true ∧ e.allowlistSatisfied = true ∧
          e.segments.length = 1 ∧ headSegArgvNonempty e.segments = true
        then headSegArgv e.segments cmd.argv else cmd.argv := by
  simp only [nodeDecision] at h
  split at h
  · simp at h
  split at h
  · simp at h
  split at h
  · simp at h
  split at h
  · simp at h
  simp only [Option.some.injEq] at h
  exact h.symm

lemma isEmpty_eq_false_of_ne_nil {l : List String} (h : l ≠ []) :
    l.isEmpty = false := isEmpty_false_of_ne_nil h

lemma handle_node (ctx : RunCtx) (oracles : RunOracles) (p : SystemRunParams)
    (cmd : ResolvedCommand)
    (hres : resolveSystemRunCommand p.command p.rawCommand = .ok cmd)
    (hargv : cmd.argv ≠ []) (hplat : ctx.platform ≠ Platform.darwin) :
    handleSystemRunInvoke ctx oracles p =
      nodeDecision ctx oracles p cmd
        (applyCmdRule ctx cmd.argv cmd.shellCommand
          (evalStage ctx oracles cmd.argv cmd.shellCommand)) none := by
  simp [handleSystemRunInvoke, hres, isEmpty_false_of_ne_nil hargv, hplat]

lemma handle_darwin_fallback (ctx : RunCtx) (oracles : RunOracles)
    (p : SystemRunParams) (cmd : ResolvedCommand)
    (hres : resolveSystemRunCommand p.command p.rawCommand = .ok cmd)
    (hargv : cmd.argv ≠ []) (hplat : ctx.platform = Platform.darwin)
    (hmac : oracles.macHost = none) (henf : ctx.execHostEnforced = false)
    (hfb : ctx.execHostFallbackAllowed = true) :
    handleSystemRunInvoke ctx oracles p =
      nodeDecision ctx oracles p cmd
        (applyCmdRule ctx cmd.argv cmd.shellCommand
          (evalStage ctx oracles cmd.argv cmd.shellCommand)) (some cmd.argv) := by
  simp [handleSystemRunInvoke, hres, isEmpty_false_of_ne_nil hargv, hplat, hmac,
    henf, hfb]

/-- Context fixture for the cmd.exe rule: Windows, allowlist security,
ask on untrusted. -/
def c4Ctx : RunCtx :=
  { platform := Platform.win32, security := ExecSecurity.allowlist,
    ask := ExecAsk.untrusted, allowlist := [echoEntry],
    execHostEnforced := false, execHostFallbackAllowed := true, nowMs := 50000 }

/-- Oracle fixture for the cmd.exe rule: spec evaluators over the echo
allowlist. -/
def c4Oracles : RunOracles :=
  { shellEval := specShellEval demoResolver [echoEntry]
    argvEval := specArgvEval demoResolver [echoEntry]
    macHost := none
    runCommand := fun _ => demoRunResult }

/-- Request fixture for the cmd.exe rule: a wrapped `cmd.exe /c echo hi`
with no pre-approval. -/
def c4Params : SystemRunParams :=
  { emptyParams with command := some ["cmd.exe", "/c", "echo", "hi"] }

/-- Counterexample for C4: on Windows under allowlist security, the outer
invocation `cmd.exe /c echo hi` is a cmd.exe invocation and is not
pre-approved, yet the pipeline does not treat analysisOk as false and does
not ask — the request is allowed outright (the rule inspected the inner
segment `echo`, not the outer argv) and the unwrapped inner argv runs. -/
theorem cmdExeRule_counterexample :
    isCmdExeInvocation ["cmd.exe", "/c", "echo", "hi"] = true ∧
    approvedByAskOf c4Params = false ∧
    (handleSystemRunInvoke c4Ctx c4Oracles c4Params).reply.ok = true ∧
    (handleSystemRunInvoke c4Ctx c4Oracles c4Params).events = [NodeEvent.finished] ∧
    (handleSystemRunInvoke c4Ctx c4Oracles c4Params).executed = some ["echo", "hi"] := by
  decide

/-- C4 (amended): the cmd.exe rule fires on the value `tool-policy.ts`
actually tests — the outer argv only when no shell command was extracted,
and the first analyzed segment of the shell command otherwise; whenever
that test holds on Windows under allowlist security with ask=untrusted and
no pre-approval, analysisOk is treated as false and the request is denied
with approval-required.  A wrapped `cmd.exe /c echo hi` does not fall
under the rule, because its first analyzed segment is `echo`. -/
theorem cmdExeRule_amended (ctx : RunCtx) (oracles : RunOracles)
    (p : SystemRunParams) (cmd : ResolvedCommand)
    (hres : resolveSystemRunCommand p.command p.rawCommand = .ok cmd)
    (hargv : cmd.argv ≠ [])
    (hplat : ctx.platform = Platform.win32)
    (hsec : ctx.security = ExecSecurity.allowlist)
    (hask : ctx.ask = ExecAsk.untrusted)
    (happ : approvedByAskOf p = false)
    (hcmd : cmdInvocationOf cmd.argv cmd.shellCommand
      (evalStage ctx oracles cmd.argv cmd.shellCommand) = true) :
    (handleSystemRunInvoke ctx oracles p).events =
      [NodeEvent.denied "approval-required"] ∧
    (handleSystemRunInvoke ctx oracles p).reply =
      unavailableReply "SYSTEM_RUN_DENIED: approval required" ∧
    (handleSystemRunInvoke ctx oracles p).executed = none := by
  have hplat' : ctx.platform ≠ Platform.darwin := by rw [hplat]; simp
  rw [handle_node ctx oracles p cmd hres hargv hplat']
  have hrule : applyCmdRule ctx cmd.argv cmd.shellCommand
      (evalStage ctx oracles cmd.argv cmd.shellCommand) =
      { evalStage ctx oracles cmd.argv cmd.shellCommand with
        analysisOk := false, allowlistSatisfied := false } := by
    simp [applyCmdRule, hsec, hplat, hcmd]
  rw [hrule]
  have hreq : requiresExecApproval ExecAsk.untrusted ExecSecurity.allowlist false false
      = true := by simp [requiresExecApproval]
  simp [nodeDecision, hsec, hask, hreq, happ]

/-- Witness for C4 (amended): a direct (unwrapped) `cmd.exe` invocation
without an extractable `/c` command is forced to ask. -/
theorem cmdExeRule_amended_witness :
    (handleSystemRunInvoke c4Ctx c4Oracles
        { emptyParams with command := some ["cmd.exe"] }).events =
      [NodeEvent.denied "approval-required"] ∧
    (handleSystemRunInvoke c4Ctx c4Oracles
        { emptyParams with command := some ["cmd.exe"] }).reply =
      unavailableReply "SYSTEM_RUN_DENIED: approval required" ∧
    (handleSystemRunInvoke c4Ctx c4Oracles
        { emptyParams with command := some ["cmd.exe"] }).executed = none :=
  cmdExeRule_amended c4Ctx c4Oracles { emptyParams with command := some ["cmd.exe"] }
    { argv := ["cmd.exe"], rawCommand := none, shellCommand := none,
      cmdText := "cmd.exe" }
    (by decide) (by decide) rfl rfl rfl (by decide) (by decide)

lemma ne_nil_of_isEmpty_false {l : List String} (h : ¬ l.isEmpty = true) :
    l ≠ [] := by
  cases l with
  | nil => simp at h
  | cons a t => simp

lemma handle_invalid_error (ctx : RunCtx) (oracles : RunOracles)
    (p : SystemRunParams) (m code : String)
    (hres : resolveSystemRunCommand p.command p.rawCommand = .error m code) :
    handleSystemRunInvoke ctx oracles p = invalidOutcome ctx m := by
  simp [handleSystemRunInvoke, hres]

lemma handle_invalid_empty (ctx : RunCtx) (oracles : RunOracles)
    (p : SystemRunParams) (cmd : ResolvedCommand)
    (hres : resolveSystemRunCommand p.command p.rawCommand = .ok cmd)
    (hargv : cmd.argv.isEmpty = true) :
    handleSystemRunInvoke ctx oracles p = invalidOutcome ctx "command required" := by
  simp [handleSystemRunInvoke, hres, hargv]

lemma handle_darwin_unavailable (ctx : RunCtx) (oracles : RunOracles)
    (p : SystemRunParams) (cmd : ResolvedCommand)
    (hres : resolveSystemRunCommand p.command p.rawCommand = .ok cmd)
    (hargv : cmd.argv ≠ []) (hplat : ctx.platform = Platform.darwin)
    (hmac : oracles.macHost = none)
    (hcond : ctx.execHostEnforced = true ∨ ctx.execHostFallbackAllowed = false) :
    handleSystemRunInvoke ctx oracles p =
      { events := [NodeEvent.denied "companion-unavailable"],
        reply := unavailableReply
          "COMPANION_APP_UNAVAILABLE: macOS app exec host unreachable",
        executed := none, macForwarded := some cmd.argv,
        allowlist := ctx.allowlist } := by
  simp [handleSystemRunInvoke, hres, isEmpty_false_of_ne_nil hargv, hplat, hmac, hcond]

lemma handle_darwin_err (ctx : RunCtx) (oracles : RunOracles)
    (p : SystemRunParams) (cmd : ResolvedCommand) (m : String)
    (reason : Option String)
    (hres : resolveSystemRunCommand p.command p.rawCommand = .ok cmd)
    (hargv : cmd.argv ≠ []) (hplat : ctx.platform = Platform.darwin)
    (hmac : oracles.macHost = some (MacResponse.err m reason)) :
    handleSystemRunInvoke ctx oracles p =
      { events := [NodeEvent.denied (reason.getD "approval-required")],
        reply := unavailableReply m, executed := none,
        macForwarded := some cmd.argv, allowlist := ctx.allowlist } := by
  simp [handleSystemRunInvoke, hres, isEmpty_false_of_ne_nil hargv, hplat, hmac]

lemma handle_darwin_ok (ctx : RunCtx) (oracles : RunOracles)
    (p : SystemRunParams) (cmd : ResolvedCommand) (payload : RunResult)
    (hres : resolveSystemRunCommand p.command p.rawCommand = .ok cmd)
    (hargv : cmd.argv ≠ []) (hplat : ctx.platform = Platform.darwin)
    (hmac : oracles.macHost = some (MacResponse.ok payload)) :
    handleSystemRunInvoke ctx oracles p =
      { events := [NodeEvent.finished], reply := okReply payload,
        executed := none, macForwarded := some cmd.argv,
        allowlist := ctx.allowlist } := by
  simp [handleSystemRunInvoke, hres, isEmpty_false_of_ne_nil hargv, hplat, hmac]

/-- Context fixture for the store-mutation counterexample: allowlist
security, never ask, empty store. -/
def c5Ctx : RunCtx :=
  { platform := Platform.linux, security := ExecSecurity.allowlist,
    ask := ExecAsk.never, allowlist := [],
    execHostEnforced := false, execHostFallbackAllowed := true, nowMs := 7777 }

/-- Oracle fixture for the store-mutation counterexample. -/
def c5Oracles : RunOracles :=
  { shellEval := specShellEval demoResolver []
    argvEval := specArgvEval demoResolver []
    macHost := none
    runCommand := fun _ => demoRunResult }

/-- Request fixture for the store-mutation counterexample: allow-always
decision together with a screen-recording requirement. -/
def c5Params : SystemRunParams :=
  { emptyParams with
    command := some ["echo", "hi"],
    approvalDecision := some "allow-always",
    needsScreenRecording := some true }

/-- Counterexample for C5: a request carrying allow-always and
needsScreenRecording is denied (reply ok=false), yet the allowlist store
has gained an entry — the insertion runs before the screen-recording
check. -/
theorem onAllow_sideEffects_counterexample :
    (handleSystemRunInvoke c5Ctx c5Oracles c5Params).reply.ok = false ∧
    (handleSystemRunInvoke c5Ctx c5Oracles c5Params).allowlist ≠ c5Ctx.allowlist := by
  decide

/-- C5 (amended): the allow-always insertion and the recordUse loop run
after the approval gate but before the screen-recording check, so the
store is unchanged for every denial except a permission:screenRecording
denial: whenever the reply is ok=false and no permission:screenRecording
event was emitted, the allowlist store after the invocation equals the
store before. -/
theorem onAllow_sideEffects_amended (ctx : RunCtx) (oracles : RunOracles)
    (p : SystemRunParams)
    (h1 : (handleSystemRunInvoke ctx oracles p).reply.ok = false)
    (h2 : NodeEvent.denied "permission:screenRecording" ∉
      (handleSystemRunInvoke ctx oracles p).events) :
    (handleSystemRunInvoke ctx oracles p).allowlist = ctx.allowlist := by
  cases hres : resolveSystemRunCommand p.command p.rawCommand with
  | error m code =>
    rw [handle_invalid_error ctx oracles p m code hres]
    rfl
  | ok cmd =>
    by_cases hargv : cmd.argv.isEmpty = true
    · rw [handle_invalid_empty ctx oracles p cmd hres hargv]
      rfl
    · have hargv' : cmd.argv ≠ [] := ne_nil_of_isEmpty_false hargv
      by_cases hplat : ctx.platform = Platform.darwin
      · cases hmac : oracles.macHost with
        | none =>
          by_cases hcond : ctx.execHostEnforced = true ∨
              ctx.execHostFallbackAllowed = false
          · rw [handle_darwin_unavailable ctx oracles p cmd hres hargv' hplat hmac hcond]
          · push_neg at hcond
            have henf : ctx.execHostEnforced = false := by
              simpa using hcond.1
            have hfb : ctx.execHostFallbackAllowed = true := by
              simpa using hcond.2
            rw [handle_darwin_fallback ctx oracles p cmd hres hargv' hplat hmac
              henf hfb] at h1 h2 ⊢
            exact nodeDecision_store ctx oracles p cmd _ _ h1 h2
        | some resp =>
          cases resp with
          | err m reason =>
            rw [handle_darwin_err ctx oracles p cmd m reason hres hargv' hplat hmac]
          | ok payload =>
            rw [handle_darwin_ok ctx oracles p cmd payload hres hargv' hplat hmac] at h1
            simp [okReply] at h1
      · rw [handle_node ctx oracles p cmd hres hargv' hplat] at h1 h2 ⊢
        exact nodeDecision_store ctx oracles p cmd _ _ h1 h2

/-- Witness for C5 (amended): an allowlist-miss denial leaves the store
unchanged. -/
theorem onAllow_sideEffects_amended_witness :
    (handleSystemRunInvoke c5Ctx c5Oracles
        { emptyParams with command := some ["uname", "-a"] }).allowlist =
      c5Ctx.allowlist :=
  onAllow_sideEffects_amended c5Ctx c5Oracles
    { emptyParams with command := some ["uname", "-a"] } (by decide) (by decide)

/-- Context fixture for the screen-recording ordering counterexample:
ask=always so the approval gate fires first. -/
def c6Ctx : RunCtx :=
  { platform := Platform.linux, security := ExecSecurity.allowlist,
    ask := ExecAsk.always, allowlist := [],
    execHostEnforced := false, execHostFallbackAllowed := true, nowMs := 0 }

/-- Request fixture: a command that needs screen recording. -/
def c6Params : SystemRunParams :=
  { emptyParams with
    command := some ["echo", "hi"],
    needsScreenRecording := some true }

/-- Counterexample for C6: a needsScreenRecording request that is not
pre-approved is denied with reason approval-required, not
permission:screenRecording — the screen-recording check runs after the
approval and allowlist gates, not at step 2. -/
theorem screenRecording_order_counterexample :
    c6Params.needsScreenRecording = some true ∧
    (handleSystemRunInvoke c6Ctx c5Oracles c6Params).events =
      [NodeEvent.denied "approval-required"] ∧
    NodeEvent.denied "permission:screenRecording" ∉
      (handleSystemRunInvoke c6Ctx c5Oracles c6Params).events := by
  decide

/-- C6 (amended): a needsScreenRecording request is denied with reason
permission:screenRecording, with the UNAVAILABLE reply and without
dispatch, only once it has survived the security=deny, approval-required
and allowlist-miss gates (and is not routed to the macOS companion);
when one of those gates fires, its denial takes precedence. -/
theorem screenRecording_denied_after_gates (ctx : RunCtx) (oracles : RunOracles)
    (p : SystemRunParams) (cmd : ResolvedCommand)
    (hres : resolveSystemRunCommand p.command p.rawCommand = .ok cmd)
    (hargv : cmd.argv ≠ [])
    (hplat : ctx.platform ≠ Platform.darwin)
    (hsec : ctx.security ≠ ExecSecurity.deny)
    (hscreen : p.needsScreenRecording = some true)
    (hask : ¬(requiresExecApproval ctx.ask ctx.security
      (applyCmdRule ctx cmd.argv cmd.shellCommand
        (evalStage ctx oracles cmd.argv cmd.shellCommand)).analysisOk
      (applyCmdRule ctx cmd.argv cmd.shellCommand
        (evalStage ctx oracles cmd.argv cmd.shellCommand)).allowlistSatisfied = true ∧
      approvedByAskOf p = false))
    (hmiss : ¬(ctx.security = ExecSecurity.allowlist ∧
      ((applyCmdRule ctx cmd.argv cmd.shellCommand
          (evalStage ctx oracles cmd.argv cmd.shellCommand)).analysisOk = false ∨
       (applyCmdRule ctx cmd.argv cmd.shellCommand
          (evalStage ctx oracles cmd.argv cmd.shellCommand)).allowlistSatisfied = false) ∧
      approvedByAskOf p = false)) :
    (handleSystemRunInvoke ctx oracles p).events =
      [NodeEvent.denied "permission:screenRecording"] ∧
    (handleSystemRunInvoke ctx oracles p).reply =
      unavailableReply "PERMISSION_MISSING: screenRecording" ∧
    (handleSystemRunInvoke ctx oracles p).executed = none := by
  rw [handle_node ctx oracles p cmd hres hargv hplat]
  simp [nodeDecision, hsec, hask, hmiss, hscreen]

/-- Context fixture for the screen-recording witness: ask=never and a
satisfied allowlist, so only the screen-recording check can deny. -/
def c6wCtx : RunCtx :=
  { platform := Platform.linux, security := ExecSecurity.allowlist,
    ask := ExecAsk.never, allowlist := [echoEntry],
    execHostEnforced := false, execHostFallbackAllowed := true, nowMs := 0 }

/-- Witness for C6 (amended): with every earlier gate passing, the
needsScreenRecording request is denied with permission:screenRecording. -/
theorem screenRecording_denied_after_gates_witness :
    (handleSystemRunInvoke c6wCtx c4Oracles c6Params).events =
      [NodeEvent.denied "permission:screenRecording"] ∧
    (handleSystemRunInvoke c6wCtx c4Oracles c6Params).reply =
      unavailableReply "PERMISSION_MISSING: screenRecording" ∧
    (handleSystemRunInvoke c6wCtx c4Oracles c6Params).executed = none :=
  screenRecording_denied_after_gates c6wCtx c4Oracles c6Params
    { argv := ["echo", "hi"], rawCommand := none, shellCommand := none,
      cmdText := "echo hi" }
    (by decide) (by decide) (by decide) (by decide) (by decide) (by decide) (by decide)

lemma applyCmdRule_segments (ctx : RunCtx) (argv : List String)
    (shellCommand : Option String) (e : EvalOut) :
    (applyCmdRule ctx argv shellCommand e).segments = e.segments := by
  unfold applyCmdRule
  split <;> rfl

lemma headSegArgvNonempty_of_wf {segs : List ExecCommandSegment}
    (hwf : ∀ seg ∈ segs, seg.argv ≠ []) (hlen : segs.length = 1) :
    headSegArgvNonempty segs = true := by
  cases segs with
  | nil => simp at hlen
  | cons s t =>
    have hs := hwf s (List.mem_cons_self s t)
    simpa [headSegArgvNonempty] using List.length_pos.mpr hs

/-- C7: whenever the invocation dispatches to the executor, the dispatched
argv equals the request argv, except that under (Windows ∧
security=allowlist ∧ not pre-approved ∧ shellCommand present ∧ analysisOk
∧ allowlistSatisfied ∧ exactly one segment) it is the single segment's
argv; the well-formedness hypothesis records that analyzed segments carry
non-empty argvs. -/
theorem execArgv_selection (ctx : RunCtx) (oracles : RunOracles)
    (p : SystemRunParams) (cmd : ResolvedCommand) (a : List String)
    (hres : resolveSystemRunCommand p.command p.rawCommand = .ok cmd)
    (hwf : ∀ seg ∈ (evalStage ctx oracles cmd.argv cmd.shellCommand).segments,
      seg.argv ≠ [])
    (hexec : (handleSystemRunInvoke ctx oracles p).executed = some a) :
    a = if ctx.security = ExecSecurity.allowlist ∧ ctx.platform = Platform.win32 ∧
          approvedByAskOf p = false ∧ cmd.shellCommand.isSome = true ∧
          (applyCmdRule ctx cmd.argv cmd.shellCommand
            (evalStage ctx oracles cmd.argv cmd.shellCommand)).analysisOk = true ∧
          (applyCmdRule ctx cmd.argv cmd.shellCommand
            (evalStage ctx oracles cmd.argv cmd.shellCommand)).allowlistSatisfied = true ∧
          (applyCmdRule ctx cmd.argv cmd.shellCommand
            (evalStage ctx oracles cmd.argv cmd.shellCommand)).segments.length = 1
        then headSegArgv (applyCmdRule ctx cmd.argv cmd.shellCommand
            (evalStage ctx oracles cmd.argv cmd.shellCommand)).segments cmd.argv
        else cmd.argv := by
  have hwf' : ∀ seg ∈ (applyCmdRule ctx cmd.argv cmd.shellCommand
      (evalStage ctx oracles cmd.argv cmd.shellCommand)).segments, seg.argv ≠ [] := by
    rw [applyCmdRule_segments]
    exact hwf
  by_cases hargv : cmd.argv.isEmpty = true
  · rw [handle_invalid_empty ctx oracles p cmd hres hargv] at hexec
    simp [invalidOutcome] at hexec
  · have hargv' := ne_nil_of_isEmpty_false hargv
    by_cases hplat : ctx.platform = Platform.darwin
    · have hnw : ¬(ctx.platform = Platform.win32) := by rw [hplat]; simp
      cases hmac : oracles.macHost with
      | none =>
        by_cases hcond : ctx.execHostEnforced = true ∨
            ctx.execHostFallbackAllowed = false
        · rw [handle_darwin_unavailable ctx oracles p cmd hres hargv' hplat hmac
            hcond] at hexec
          simp at hexec
        · push_neg at hcond
          rw [handle_darwin_fallback ctx oracles p cmd hres hargv' hplat hmac
            (by simpa using hcond.1) (by simpa using hcond.2)] at hexec
          rw [nodeDecision_executed ctx oracles p cmd _ _ hexec]
          rw [if_neg fun hc => hnw hc.2.1, if_neg fun hc => hnw hc.2.1]
      | some resp =>
        cases resp with
        | err m reason =>
          rw [handle_darwin_err ctx oracles p cmd m reason hres hargv' hplat
            hmac] at hexec
          simp at hexec
        | ok payload =>
          rw [handle_darwin_ok ctx oracles p cmd payload hres hargv' hplat
            hmac] at hexec
          simp at hexec
    · rw [handle_node ctx oracles p cmd hres hargv' hplat] at hexec
      rw [nodeDecision_executed ctx oracles p cmd _ _ hexec]
      by_cases hcl : ctx.security = ExecSecurity.allowlist ∧
          ctx.platform = Platform.win32 ∧ approvedByAskOf p = false ∧
          cmd.shellCommand.isSome = true ∧
          (applyCmdRule ctx cmd.argv cmd.shellCommand
            (evalStage ctx oracles cmd.argv cmd.shellCommand)).analysisOk = true ∧
          (applyCmdRule ctx cmd.argv cmd.shellCommand
            (evalStage ctx oracles cmd.argv cmd.shellCommand)).allowlistSatisfied = true ∧
          (applyCmdRule ctx cmd.argv cmd.shellCommand
            (evalStage ctx oracles cmd.argv cmd.shellCommand)).segments.length = 1
      · obtain ⟨h1, h2, h3, h4, h5, h6, h7⟩ := hcl
        rw [if_pos ⟨h1, h2, h3, h4, h5, h6, h7, headSegArgvNonempty_of_wf hwf' h7⟩,
          if_pos ⟨h1, h2, h3, h4, h5, h6, h7⟩]
      · rw [if_neg fun hc =>
            hcl ⟨hc.1, hc.2.1, hc.2.2.1, hc.2.2.2.1, hc.2.2.2.2.1,
              hc.2.2.2.2.2.1, hc.2.2.2.2.2.2.1⟩,
          if_neg hcl]

/-- Witness for C7: the Windows unwrap case — `cmd.exe /c echo hi` is
dispatched as `["echo", "hi"]`, the single segment's argv. -/
theorem execArgv_selection_witness :
    (handleSystemRunInvoke c4Ctx c4Oracles c4Params).executed =
      some ["echo", "hi"] ∧
    (["echo", "hi"] : List String) =
      (if c4Ctx.security = ExecSecurity.allowlist ∧
          c4Ctx.platform = Platform.win32 ∧
          approvedByAskOf c4Params = false ∧
          (some "echo hi" : Option String).isSome = true ∧
          (applyCmdRule c4Ctx ["cmd.exe", "/c", "echo", "hi"] (some "echo hi")
            (evalStage c4Ctx c4Oracles ["cmd.exe", "/c", "echo", "hi"]
              (some "echo hi"))).analysisOk = true ∧
          (applyCmdRule c4Ctx ["cmd.exe", "/c", "echo", "hi"] (some "echo hi")
            (evalStage c4Ctx c4Oracles ["cmd.exe", "/c", "echo", "hi"]
              (some "echo hi"))).allowlistSatisfied = true ∧
          (applyCmdRule c4Ctx ["cmd.exe", "/c", "echo", "hi"] (some "echo hi")
            (evalStage c4Ctx c4Oracles ["cmd.exe", "/c", "echo", "hi"]
              (some "echo hi"))).segments.length = 1
        then headSegArgv (applyCmdRule c4Ctx ["cmd.exe", "/c", "echo", "hi"]
            (some "echo hi")
            (evalStage c4Ctx c4Oracles ["cmd.exe", "/c", "echo", "hi"]
              (some "echo hi"))).segments ["cmd.exe", "/c", "echo", "hi"]
        else ["cmd.exe", "/c", "echo", "hi"]) :=
  ⟨by decide,
    execArgv_selection c4Ctx c4Oracles c4Params
      { argv := ["cmd.exe", "/c", "echo", "hi"], rawCommand := none,
        shellCommand := some "echo hi", cmdText := "echo hi" }
      ["echo", "hi"] (by decide) (by decide) (by decide)⟩

/-- Context fixture for the security=deny counterexample: macOS with an
enforced but unreachable companion exec host. -/
def c8Ctx : RunCtx :=
  { platform := Platform.darwin, security := ExecSecurity.deny,
    ask := ExecAsk.never, allowlist := [],
    execHostEnforced := true, execHostFallbackAllowed := false, nowMs := 0 }

/-- Request fixture for the security=deny counterexample. -/
def c8Params : SystemRunParams :=
  { emptyParams with command := some ["echo", "hi"] }

/-- Counterexample for C8: under security=deny on macOS, the request is
routed to the companion exec host before the deny check; with the host
unreachable the denial reason is companion-unavailable, not
security=deny. -/
theorem securityDeny_counterexample :
    c8Ctx.security = ExecSecurity.deny ∧
    (handleSystemRunInvoke c8Ctx c5Oracles c8Params).events =
      [NodeEvent.denied "companion-unavailable"] ∧
    NodeEvent.denied "security=deny" ∉
      (handleSystemRunInvoke c8Ctx c5Oracles c8Params).events := by
  decide

/-- C8 (amended): whenever the macOS-companion path is not taken — the
platform is not darwin, or the companion is unreachable with fallback
allowed — security=deny yields the exec.denied event with reason
security=deny, the UNAVAILABLE reply, and no executor dispatch. -/
theorem securityDeny_node_path (ctx : RunCtx) (oracles : RunOracles)
    (p : SystemRunParams) (cmd : ResolvedCommand)
    (hres : resolveSystemRunCommand p.command p.rawCommand = .ok cmd)
    (hargv : cmd.argv ≠ [])
    (hsec : ctx.security = ExecSecurity.deny)
    (hpath : ctx.platform ≠ Platform.darwin ∨
      (oracles.macHost = none ∧ ctx.execHostEnforced = false ∧
        ctx.execHostFallbackAllowed = true)) :
    (handleSystemRunInvoke ctx oracles p).events =
      [NodeEvent.denied "security=deny"] ∧
    (handleSystemRunInvoke ctx oracles p).reply =
      unavailableReply "SYSTEM_RUN_DISABLED: security=deny" ∧
    (handleSystemRunInvoke ctx oracles p).executed = none := by
  rcases hpath with hplat | ⟨hmac, henf, hfb⟩
  · rw [handle_node ctx oracles p cmd hres hargv hplat]
    simp [nodeDecision, hsec]
  · by_cases hplat : ctx.platform = Platform.darwin
    · rw [handle_darwin_fallback ctx oracles p cmd hres hargv hplat hmac henf hfb]
      simp [nodeDecision, hsec]
    · rw [handle_node ctx oracles p cmd hres hargv hplat]
      simp [nodeDecision, hsec]

/-- Witness for C8 (amended): a Linux request under security=deny is
denied with reason security=deny and never dispatched. -/
theorem securityDeny_node_path_witness :
    (handleSystemRunInvoke
        { c8Ctx with platform := Platform.linux } c5Oracles c8Params).events =
      [NodeEvent.denied "security=deny"] ∧
    (handleSystemRunInvoke
        { c8Ctx with platform := Platform.linux } c5Oracles c8Params).reply =
      unavailableReply "SYSTEM_RUN_DISABLED: security=deny" ∧
    (handleSystemRunInvoke
        { c8Ctx with platform := Platform.linux } c5Oracles c8Params).executed =
      none :=
  securityDeny_node_path { c8Ctx with platform := Platform.linux } c5Oracles c8Params
    { argv := ["echo", "hi"], rawCommand := none, shellCommand := none,
      cmdText := "echo hi" }
    (by decide) (by decide) rfl (Or.inl (by decide))

/-- C9: a request rejected at normalization (INVALID_REQUEST reply) emits
no exec event, and a request accepted past normalization emits exactly one
event — one exec.denied or one exec.finished, never both, never
neither. -/
theorem exec_event_exactly_once (ctx : RunCtx) (oracles : RunOracles)
    (p : SystemRunParams) :
    ((handleSystemRunInvoke ctx oracles p).reply.errorCode =
        some "INVALID_REQUEST" →
      (handleSystemRunInvoke ctx oracles p).events = []) ∧
    (∀ cmd, resolveSystemRunCommand p.command p.rawCommand = .ok cmd →
      cmd.argv ≠ [] →
      (handleSystemRunInvoke ctx oracles p).events.length = 1) := by
  constructor
  · intro h
    cases hres : resolveSystemRunCommand p.command p.rawCommand with
    | error m code => rw [handle_invalid_error ctx oracles p m code hres]; rfl
    | ok cmd =>
      by_cases hargv : cmd.argv.isEmpty = true
      · rw [handle_invalid_empty ctx oracles p cmd hres hargv]; rfl
      · have hargv' := ne_nil_of_isEmpty_false hargv
        exfalso
        by_cases hplat : ctx.platform = Platform.darwin
        · cases hmac : oracles.macHost with
          | none =>
            by_cases hcond : ctx.execHostEnforced = true ∨
                ctx.execHostFallbackAllowed = false
            · rw [handle_darwin_unavailable ctx oracles p cmd hres hargv' hplat
                hmac hcond] at h
              simp [unavailableReply] at h
            · push_neg at hcond
              rw [handle_darwin_fallback ctx oracles p cmd hres hargv' hplat hmac
                (by simpa using hcond.1) (by simpa using hcond.2)] at h
              exact nodeDecision_errorCode ctx oracles p cmd _ _ h
          | some resp =>
            cases resp with
            | err m reason =>
              rw [handle_darwin_err ctx oracles p cmd m reason hres hargv' hplat
                hmac] at h
              simp [unavailableReply] at h
            | ok payload =>
              rw [handle_darwin_ok ctx oracles p cmd payload hres hargv' hplat
                hmac] at h
              simp [okReply] at h
        · rw [handle_node ctx oracles p cmd hres hargv' hplat] at h
          exact nodeDecision_errorCode ctx oracles p cmd _ _ h
  · intro cmd hres hargv
    by_cases hplat : ctx.platform = Platform.darwin
    · cases hmac : oracles.macHost with
      | none =>
        by_cases hcond : ctx.execHostEnforced = true ∨
            ctx.execHostFallbackAllowed = false
        · rw [handle_darwin_unavailable ctx oracles p cmd hres hargv hplat hmac
            hcond]
          rfl
        · push_neg at hcond
          rw [handle_darwin_fallback ctx oracles p cmd hres hargv hplat hmac
            (by simpa using hcond.1) (by simpa using hcond.2)]
          exact nodeDecision_events_length ctx oracles p cmd _ _
      | some resp =>
        cases resp with
        | err m reason =>
          rw [handle_darwin_err ctx oracles p cmd m reason hres hargv hplat hmac]
          rfl
        | ok payload =>
          rw [handle_darwin_ok ctx oracles p cmd payload hres hargv hplat hmac]
          rfl
    · rw [handle_node ctx oracles p cmd hres hargv hplat]
      exact nodeDecision_events_length ctx oracles p cmd _ _

/-- Witness for C9: an accepted request that misses the allowlist emits
exactly one event. -/
theorem exec_event_exactly_once_witness :
    (handleSystemRunInvoke c5Ctx c5Oracles c8Params).events.length = 1 :=
  (exec_event_exactly_once c5Ctx c5Oracles c8Params).2
    { argv := ["echo", "hi"], rawCommand := none, shellCommand := none,
      cmdText := "echo hi" }
    (by decide) (by decide)

lemma approvedByAsk_of_approved {p : SystemRunParams}
    (h : p.approved = some true) : approvedByAskOf p = true := by
  simp [approvedByAskOf, h]

/-- Context fixture for the pre-approval counterexample: macOS with a
reachable companion that denies. -/
def c10Ctx : RunCtx :=
  { platform := Platform.darwin, security := ExecSecurity.allowlist,
    ask := ExecAsk.untrusted, allowlist := [],
    execHostEnforced := true, execHostFallbackAllowed := false, nowMs := 0 }

/-- Oracle fixture for the pre-approval counterexample: the companion
denies without naming a reason. -/
def c10Oracles : RunOracles :=
  { shellEval := specShellEval demoResolver []
    argvEval := specArgvEval demoResolver []
    macHost := some (MacResponse.err "SYSTEM_RUN_DENIED: approval required" none)
    runCommand := fun _ => demoRunResult }

/-- Request fixture: approved=true with no approvalDecision. -/
def c10Params : SystemRunParams :=
  { emptyParams with
    command := some ["echo", "hi"],
    approved := some true }

/-- Counterexample for C10: on macOS the `approved` flag is not forwarded
to the companion exec host, and a companion denial without a reason is
relayed as an approval-required denial — so an approved=true request can
still see the approval-required denial fire. -/
theorem preapproved_counterexample :
    c10Params.approved = some true ∧
    approvalDecisionOf c10Params = none ∧
    (handleSystemRunInvoke c10Ctx c10Oracles c10Params).events =
      [NodeEvent.denied "approval-required"] := by
  decide

/-- C10 (amended): a request with approved=true and no usable
approvalDecision never changes the set of allowlist entries (only
recordUse metadata may change), and on the node decision path — any
non-darwin platform — the approval-required and allowlist-miss denials
cannot fire; on macOS a companion-relayed denial may still carry reason
approval-required. -/
theorem preapproved_no_gate_denials (ctx : RunCtx) (oracles : RunOracles)
    (p : SystemRunParams)
    (happ : p.approved = some true)
    (hdec : approvalDecisionOf p = none) :
    (handleSystemRunInvoke ctx oracles p).allowlist.map entryKey =
      ctx.allowlist.map entryKey ∧
    (ctx.platform ≠ Platform.darwin →
      NodeEvent.denied "approval-required" ∉
        (handleSystemRunInvoke ctx oracles p).events ∧
      NodeEvent.denied "allowlist-miss" ∉
        (handleSystemRunInvoke ctx oracles p).events) := by
  have happ' : approvedByAskOf p = true := approvedByAsk_of_approved happ
  constructor
  · cases hres : resolveSystemRunCommand p.command p.rawCommand with
    | error m code =>
      rw [handle_invalid_error ctx oracles p m code hres]
      rfl
    | ok cmd =>
      by_cases hargv : cmd.argv.isEmpty = true
      · rw [handle_invalid_empty ctx oracles p cmd hres hargv]
        rfl
      · have hargv' := ne_nil_of_isEmpty_false hargv
        by_cases hplat : ctx.platform = Platform.darwin
        · cases hmac : oracles.macHost with
          | none =>
            by_cases hcond : ctx.execHostEnforced = true ∨
                ctx.execHostFallbackAllowed = false
            · rw [handle_darwin_unavailable ctx oracles p cmd hres hargv' hplat
                hmac hcond]
            · push_neg at hcond
              rw [handle_darwin_fallback ctx oracles p cmd hres hargv' hplat hmac
                (by simpa using hcond.1) (by simpa using hcond.2)]
              exact nodeDecision_keys ctx oracles p cmd _ _ hdec
          | some resp =>
            cases resp with
            | err m reason =>
              rw [handle_darwin_err ctx oracles p cmd m reason hres hargv' hplat
                hmac]
            | ok payload =>
              rw [handle_darwin_ok ctx oracles p cmd payload hres hargv' hplat
                hmac]
        · rw [handle_node ctx oracles p cmd hres hargv' hplat]
          exact nodeDecision_keys ctx oracles p cmd _ _ hdec
  · intro hplat
    cases hres : resolveSystemRunCommand p.command p.rawCommand with
    | error m code =>
      rw [handle_invalid_error ctx oracles p m code hres]
      constructor <;> simp [invalidOutcome]
    | ok cmd =>
      by_cases hargv : cmd.argv.isEmpty = true
      · rw [handle_invalid_empty ctx oracles p cmd hres hargv]
        constructor <;> simp [invalidOutcome]
      · have hargv' := ne_nil_of_isEmpty_false hargv
        rw [handle_node ctx oracles p cmd hres hargv' hplat]
        exact nodeDecision_preapproved_events ctx oracles p cmd _ _ happ'

/-- Witness for C10 (amended): a pre-approved allowlist-missing request on
Linux runs without any gate denial and leaves the entry set unchanged. -/
theorem preapproved_no_gate_denials_witness :
    (handleSystemRunInvoke c5Ctx c5Oracles c10Params).allowlist.map entryKey =
      c5Ctx.allowlist.map entryKey ∧
    (c5Ctx.platform ≠ Platform.darwin →
      NodeEvent.denied "approval-required" ∉
        (handleSystemRunInvoke c5Ctx c5Oracles c10Params).events ∧
      NodeEvent.denied "allowlist-miss" ∉
        (handleSystemRunInvoke c5Ctx c5Oracles c10Params).events) :=
  preapproved_no_gate_denials c5Ctx c5Oracles c10Params rfl (by decide)
